import Mathlib

/-!
# Verification of the mypy-json-report message-parsing and change-tracking engine

A shallow embedding of `mypy_json_report/parse.py` (plus the relevant slice of
`mypy_json_report/cli.py`).  Python strings are modelled as `List Char`;
Python `dict` / `collections.Counter` values are modelled as insertion-ordered
association lists, mirroring Python's documented ordering semantics; Python
exceptions escaping a function are modelled with `Except`.
-/

set_option autoImplicit false

namespace MypyJsonReport

/-- A Python string, modelled as its list of characters. -/
abbrev Str := List Char

/-- Shorthand to write a concrete `Str` from a Lean string literal. -/
def strL (s : String) : Str := s.toList

/-- The characters stripped by Python's `str.strip()` / `str.rstrip()`
(ASCII whitespace; mypy output is ASCII in the relevant positions). -/
def pyIsSpace (c : Char) : Bool :=
  c = ' ' || c = '\t' || c = '\n' || c = '\x0d' || c = '\x0b' || c = '\x0c'

/-- Python `str.strip()`: remove leading and trailing whitespace. -/
def pyStrip (s : Str) : Str :=
  ((s.dropWhile pyIsSpace).reverse.dropWhile pyIsSpace).reverse

/-- Python `str.rstrip()`: remove trailing whitespace. -/
def pyRstrip (s : Str) : Str :=
  (s.reverse.dropWhile pyIsSpace).reverse

/-- Does `pre` occur at the start of `s`?  (Local replacement for the
corresponding list-library function, kept self-contained.) -/
def leadsWith : Str → Str → Bool
  | [], _ => true
  | _ :: _, [] => false
  | a :: as, b :: bs => a = b && leadsWith as bs

/-- Split `s` at the first occurrence of the (nonempty) separator `sep`:
returns the part before and the part after, or `none` when `sep` does not
occur.  Occurrences are found left to right, as Python's `str.split` does. -/
def splitAtFirst (sep : Str) : Str → Option (Str × Str)
  | [] => none
  | c :: cs =>
      if leadsWith sep (c :: cs) then some ([], (c :: cs).drop sep.length)
      else
        match splitAtFirst sep cs with
        | some (pre, post) => some (c :: pre, post)
        | none => none

/-- Python `s.split(sep, maxsplit)` for a nonempty separator: perform at most
`maxsplit` splits, scanning left to right. -/
def pySplitMax (sep : Str) : Nat → Str → List Str
  | 0, s => [s]
  | k + 1, s =>
      match splitAtFirst sep s with
      | none => [s]
      | some (pre, post) => pre :: pySplitMax sep k post

/-- Python `line.split(": ", 2)`. -/
def pySplit2 (s : Str) : List Str := pySplitMax [':', ' '] 2 s

/-- Python `s.split(sep)` (no `maxsplit`): `s.length` splits always suffice,
because each performed split consumes at least the nonempty separator. -/
def pySplitAll (sep : Str) (s : Str) : List Str := pySplitMax sep s.length s

/-- Helper for Python `int()`: consume the digits after the first one.
Python allows a single underscore between two digits (`1_000`), but not a
leading, trailing or doubled underscore.  `acc` is the value read so far. -/
def pyDigitsAux : Str → Nat → Option Nat
  | [], acc => some acc
  | c :: cs, acc =>
      if c.isDigit then pyDigitsAux cs (acc * 10 + (c.toNat - 48))
      else if c = '_' then
        match cs with
        | [] => none
        | d :: cs' =>
            if d.isDigit then pyDigitsAux cs' (acc * 10 + (d.toNat - 48))
            else none
      else none

/-- Helper for Python `int()`: a digit sequence must start with a digit. -/
def pyDigitsStart : Str → Option Nat
  | [] => none
  | c :: cs => if c.isDigit then pyDigitsAux cs (c.toNat - 48) else none

/-- Python `int(s)` on a string: strip whitespace, allow one optional sign,
then a nonempty ASCII digit sequence (underscores between digits allowed).
`none` models the `ValueError` raised on any other input. -/
def pyInt (s : Str) : Option Int :=
  match pyStrip s with
  | [] => none
  | c :: rest =>
      if c = '+' then (pyDigitsStart rest).map Int.ofNat
      else if c = '-' then (pyDigitsStart rest).map (fun n => -(Int.ofNat n))
      else (pyDigitsStart (c :: rest)).map Int.ofNat

/-- The numeric value of a base-10 digit string (most significant first).
Used to state what `int` returns on a plain digit string. -/
def decimalValue (ds : Str) : Nat :=
  ds.foldl (fun a c => a * 10 + (c.toNat - 48)) 0

/-- No occurrence of the separator `": "` starts inside `s` (including at its
last character, whatever follows). -/
def csFree : Str → Bool
  | [] => true
  | [_] => true
  | c :: d :: rest => !(c = ':' && d = ' ') && csFree (d :: rest)

/-- The exceptions that can escape `MypyMessage.from_line`.
`skipLine` and `filenameWithoutLineNumber` model the two exception classes
declared in `parse.py` (`SkipLineError`, `FilenameWithoutLineNumberError`);
`unhandledValueError` models the `ValueError` raised by the unguarded
`int(line_number)` call, which no `try` in `from_line` catches. -/
inductive FromLineError where
  | skipLine
  | filenameWithoutLineNumber
  | unhandledValueError
  deriving DecidableEq, Repr

/-- One parsed mypy diagnostic line (`MypyMessage` in `parse.py`). -/
structure MypyMessage where
  filename : Str
  line_number : Int
  message : Str
  message_type : Str
  raw : Str
  deriving DecidableEq, Repr

/-- `MypyMessage.from_line`:

```python
try:
    location, message_type, message = line.strip().split(": ", 2)
except ValueError as e:
    raise SkipLineError from e
try:
    filename, line_number, *_ = location.split(":")
except ValueError:
    raise FilenameWithoutLineNumberError(...)
return MypyMessage(filename=filename, line_number=int(line_number),
                   message=message, message_type=message_type, raw=line.rstrip())
```

The first unpacking succeeds only on exactly three parts (a 2-maxsplit can
never yield more than three); the second requires at least two parts. -/
def MypyMessage.from_line (line : Str) : Except FromLineError MypyMessage :=
  match pySplit2 (pyStrip line) with
  | [location, message_type, message] =>
      match pySplitAll [':'] location with
      | filename :: line_number :: _ =>
          match pyInt line_number with
          | some n =>
              .ok { filename := filename, line_number := n, message := message,
                    message_type := message_type, raw := pyRstrip line }
          | none => .error .unhandledValueError
      | _ => .error .filenameWithoutLineNumber
  | _ => .error .skipLine

/-- `MypyMessage.from_lines`: yield the parse of each line, skipping lines
that raise `SkipLineError`; any other exception escapes to the caller and
ends the iteration. -/
def MypyMessage.from_lines : List Str → Except FromLineError (List MypyMessage)
  | [] => .ok []
  | line :: rest =>
      match MypyMessage.from_line line with
      | .ok m => (MypyMessage.from_lines rest).map (fun ms => m :: ms)
      | .error .skipLine => MypyMessage.from_lines rest
      | .error e => .error e

/-! ## Python dicts and Counters

A Python `dict` is insertion-ordered: assigning to an existing key replaces
its value in place, assigning a fresh key appends it at the end, and
`dict.pop` removes the key.  We model a dict as an association list with
those semantics.  A `collections.Counter` is a dict from keys to counts. -/

/-- An insertion-ordered Python dict. -/
abbrev Dict (K V : Type) := List (K × V)

/-- A Python `Counter` (all counts in this program are nonnegative:
they come either from counting records or from a previously serialized
`ErrorSummary`). -/
abbrev Counter (K : Type) := List (K × Nat)

/-- `d[k]`, as an `Option` (Python would raise `KeyError` when absent). -/
def dictGet {K V : Type} [DecidableEq K] : Dict K V → K → Option V
  | [], _ => none
  | (k', v) :: rest, k => if k' = k then some v else dictGet rest k

/-- `d.get(k, dflt)`. -/
def dictGetD {K V : Type} [DecidableEq K] (d : Dict K V) (k : K) (dflt : V) : V :=
  (dictGet d k).getD dflt

/-- `d[k] = v`: replace in place when the key exists, else append. -/
def dictSet {K V : Type} [DecidableEq K] : Dict K V → K → V → Dict K V
  | [], k, v => [(k, v)]
  | (k', v') :: rest, k, v =>
      if k' = k then (k, v) :: rest else (k', v') :: dictSet rest k v

/-- `d.pop(k, default)`: the popped value (if any) and the remaining dict. -/
def dictPop {K V : Type} [DecidableEq K] : Dict K V → K → Option V × Dict K V
  | [], _ => (none, [])
  | (k', v) :: rest, k =>
      if k' = k then (some v, rest)
      else
        let r := dictPop rest k
        (r.1, (k', v) :: r.2)

/-- `defaultdict(list)`: `d[k].append(v)`. -/
def dictAppend {K V : Type} [DecidableEq K] : Dict K (List V) → K → V → Dict K (List V)
  | [], k, v => [(k, [v])]
  | (k', vs) :: rest, k, v =>
      if k' = k then (k', vs ++ [v]) :: rest else (k', vs) :: dictAppend rest k v

/-- `counter[k]`: a `Counter` returns 0 for a missing key. -/
def counterGet {K : Type} [DecidableEq K] (c : Counter K) (k : K) : Nat :=
  (dictGet c k).getD 0

/-- `counter.update([k])` (i.e. `counter[k] += 1`). -/
def counterUpdate {K : Type} [DecidableEq K] : Counter K → K → Counter K
  | [], k => [(k, 1)]
  | (k', v) :: rest, k =>
      if k' = k then (k', v + 1) :: rest else (k', v) :: counterUpdate rest k

/-- `Counter.__sub__`: `a - b` keeps, in `a`'s key order, every key of `a`
whose truncated difference is strictly positive (standard multiset/bag
difference; keys only in `b` would yield nonpositive counts and are
dropped). -/
def counterSub {K : Type} [DecidableEq K] (a b : Counter K) : Counter K :=
  (a.map (fun kv => (kv.1, kv.2 - counterGet b kv.1))).filter (fun kv => 0 < kv.2)

/-- `sum(counter.values())`. -/
def sumValues {K : Type} (c : Counter K) : Nat :=
  (c.map (fun kv => kv.2)).sum

/-- The keys of a dict, in order. -/
def dictKeys {K V : Type} (d : Dict K V) : List K := d.map (fun kv => kv.1)

/-- The dict has no repeated key (true of every dict Python can build;
our association-list model can express violations, so we track it). -/
def NodupKeys {K V : Type} (d : Dict K V) : Prop := (dictKeys d).Nodup

/-! ## The per-batch indexes built by the processors

`ErrorCounter.process_messages` and `ChangeTracker.process_messages` each run
one loop over the batch.  The loop bodies update independent accumulators, so
we translate each accumulator as its own fold over the same message list. -/

/-- The error-severity message type tag: `"error"`. -/
def errorTag : Str := strL "error"

/-- `Counter(m.message for m in messages if m.message_type == "error")` —
also the Counter built by `error_frequencies.update([message.message])`
inside the `ChangeTracker` loop (a `Counter` of an iterable counts the
elements in first-occurrence order, exactly like repeated `update`). -/
def errorFrequencies (messages : List MypyMessage) : Counter Str :=
  messages.foldl
    (fun ef m => if m.message_type = errorTag then counterUpdate ef m.message else ef) []

/-- The `messages_by_line_number` index: every record of any severity has its
raw line appended under its line number. -/
def messagesByLineNumber (messages : List MypyMessage) : Dict Int (List Str) :=
  messages.foldl (fun d m => dictAppend d m.line_number m.raw) []

/-- The `line_numbers_by_error` index: error-severity records only. -/
def lineNumbersByError (messages : List MypyMessage) : Dict Str (List Int) :=
  messages.foldl
    (fun d m => if m.message_type = errorTag then dictAppend d m.message m.line_number else d) []

/-- The number of error-severity records in the batch (the amount added to
`self.num_errors` by the `ChangeTracker` loop). -/
def countErrors (messages : List MypyMessage) : Nat :=
  (messages.filter (fun m => m.message_type = errorTag)).length

/-- The concrete diagnostic line `"<file>:<n>: error: <msg>"` of claim C4,
with the line number given as its digit string `n`. -/
def errorLine (file n msg : Str) : Str :=
  file ++ [':'] ++ n ++ [':', ' '] ++ errorTag ++ [':', ' '] ++ msg

/-- `matched_count`: the sum over `a`'s messages of
`min(count in a, count in b)` — the spec's matched multiset size. -/
def matchedCount {K : Type} [DecidableEq K] (a b : Counter K) : Nat :=
  (a.map (fun kv => min kv.2 (counterGet b kv.1))).sum

/-- `del d[k]` (on the first occurrence): the dict left by `dictPop`. -/
def eraseKey {K V : Type} [DecidableEq K] (d : Dict K V) (k : K) : Dict K V :=
  (dictPop d k).2

/-- Sample parsed messages used by the concrete witnesses. -/
def exErr1 : MypyMessage :=
  { filename := strL "a.py", line_number := 1, message := strL "bad type",
    message_type := strL "error", raw := strL "a.py:1: error: bad type" }

def exErr2 : MypyMessage :=
  { filename := strL "a.py", line_number := 2, message := strL "other",
    message_type := strL "error", raw := strL "a.py:2: error: other" }

def exErrX : MypyMessage :=
  { filename := strL "a.py", line_number := 1, message := strL "X",
    message_type := strL "error", raw := strL "a.py:1: error: X" }

def exNoteY : MypyMessage :=
  { filename := strL "a.py", line_number := 1, message := strL "Y",
    message_type := strL "note", raw := strL "a.py:1: note: Y" }

/-- A sample stored baseline: `{"a.py": {"bad type": 2}}`. -/
def exBaseline : Dict Str (Counter Str) := [(strL "a.py", [(strL "bad type", 2)])]

/-! ## ErrorCounter -/

/-- The `ErrorCounter` processor state: `grouped_errors` maps a file name to
its Counter of error messages. -/
structure ErrorCounter where
  grouped_errors : Dict Str (Counter Str)
  deriving DecidableEq, Repr

/-- `ErrorCounter.process_messages`:

```python
error_strings = (m.message for m in messages if m.message_type == "error")
counted_errors = Counter(error_strings)
if counted_errors:
    self.grouped_errors[filename] = counted_errors
```
-/
def ErrorCounter.process_messages (ec : ErrorCounter) (filename : Str)
    (messages : List MypyMessage) : ErrorCounter :=
  let counted_errors := errorFrequencies messages
  if counted_errors = [] then ec
  else { grouped_errors := dictSet ec.grouped_errors filename counted_errors }

/-! ## ChangeTracker -/

/-- The `DiffReport` dataclass. -/
structure DiffReport where
  error_lines : List Str
  total_errors : Nat
  num_new_errors : Nat
  num_fixed_errors : Nat
  deriving DecidableEq, Repr

/-- The `ChangeTracker` mutable state. -/
structure ChangeTracker where
  old_report : Dict Str (Counter Str)
  error_lines : List Str
  num_errors : Nat
  num_new_errors : Nat
  num_fixed_errors : Nat
  deriving DecidableEq, Repr

/-- `ChangeTracker(summary, ...)`: fresh counters, the baseline as given. -/
def ChangeTracker.init (summary : Dict Str (Counter Str)) : ChangeTracker :=
  { old_report := summary, error_lines := [], num_errors := 0,
    num_new_errors := 0, num_fixed_errors := 0 }

/-- The inner evidence loop of `ChangeTracker.process_messages`:

```python
for line_number in line_numbers_by_error[new_error]:
    self.error_lines.extend(messages_by_line_number.pop(line_number, []))
```

The accumulator carries the lines emitted so far and the (destructively
popped) `messages_by_line_number` dict. -/
def evidenceInner (acc : List Str × Dict Int (List Str)) (lns : List Int) :
    List Str × Dict Int (List Str) :=
  lns.foldl
    (fun acc2 ln =>
      let p := dictPop acc2.2 ln
      (acc2.1 ++ p.1.getD [], p.2))
    acc

/-- The outer evidence loop: `for new_error in new_errors_in_file: ...`
(iterating the Counter's keys in order). -/
def evidenceFold (lbe : Dict Str (List Int)) (nef : Counter Str)
    (mbl : Dict Int (List Str)) : List Str × Dict Int (List Str) :=
  nef.foldl (fun acc kv => evidenceInner acc (dictGetD lbe kv.1 [])) ([], mbl)

/-- `ChangeTracker.process_messages`: build the three per-batch indexes and
the error count (one source loop, four independent accumulators), pop this
file from the baseline, take both truncated Counter differences, and emit the
evidence lines for new errors. -/
def ChangeTracker.process_messages (t : ChangeTracker) (filename : Str)
    (messages : List MypyMessage) : ChangeTracker :=
  let error_frequencies := errorFrequencies messages
  let messages_by_line_number := messagesByLineNumber messages
  let line_numbers_by_error := lineNumbersByError messages
  let popped := dictPop t.old_report filename
  let old_report_counter : Counter Str := popped.1.getD []
  let new_errors_in_file := counterSub error_frequencies old_report_counter
  let ev := evidenceFold line_numbers_by_error new_errors_in_file messages_by_line_number
  let resolved_errors := counterSub old_report_counter error_frequencies
  { old_report := popped.2,
    error_lines := t.error_lines ++ ev.1,
    num_errors := t.num_errors + countErrors messages,
    num_new_errors := t.num_new_errors + sumValues new_errors_in_file,
    num_fixed_errors := t.num_fixed_errors + sumValues resolved_errors }

/-- `ChangeTracker.diff_report`: whatever is left in the drained baseline is
counted, file by file, into `num_fixed_errors`. -/
def ChangeTracker.diff_report (t : ChangeTracker) : DiffReport :=
  let unseen_errors := (t.old_report.map (fun kv => sumValues kv.2)).sum
  { error_lines := t.error_lines,
    total_errors := t.num_errors,
    num_new_errors := t.num_new_errors,
    num_fixed_errors := t.num_fixed_errors + unseen_errors }

/-! ## The driver `parse_message_lines`, specialized to one ChangeTracker

`parse_message_lines` parses all lines, sorts the messages by filename
(Python's `sorted` is stable), groups consecutive equal filenames
(`itertools.groupby`), and feeds each group to every processor. -/

/-- Python string `<`: lexicographic by code point. -/
def strLt : Str → Str → Bool
  | [], [] => false
  | [], _ :: _ => true
  | _ :: _, [] => false
  | a :: as, b :: bs => if a = b then strLt as bs else decide (a < b)

/-- Stable insertion of a message into a filename-sorted list: the new
element goes after every strictly smaller filename and before any equal one
coming from later input positions. -/
def insertByFilename (m : MypyMessage) : List MypyMessage → List MypyMessage
  | [] => [m]
  | x :: xs =>
      if strLt x.filename m.filename then x :: insertByFilename m xs
      else m :: x :: xs

/-- `sorted(messages, key=attrgetter("filename"))` (stable). -/
def sortByFilename : List MypyMessage → List MypyMessage
  | [] => []
  | m :: ms => insertByFilename m (sortByFilename ms)

/-- `itertools.groupby(..., key=attrgetter("filename"))`: consecutive runs of
one filename become one batch. -/
def groupByFilename : List MypyMessage → List (Str × List MypyMessage)
  | [] => []
  | m :: ms =>
      match groupByFilename ms with
      | [] => [(m.filename, [m])]
      | (fn, g) :: rest =>
          if m.filename = fn then (fn, m :: g) :: rest
          else (m.filename, [m]) :: (fn, g) :: rest

/-- `parse_message_lines([tracker], lines)` up to the point where the
tracker's `DiffReport` is built: parse (propagating any non-skip parse
failure), sort, group, process each batch, and produce `diff_report()`. -/
def runChangeTracker (baseline : Dict Str (Counter Str)) (lines : List Str) :
    Except FromLineError DiffReport :=
  match MypyMessage.from_lines lines with
  | .error e => .error e
  | .ok messages =>
      let groups := groupByFilename (sortByFilename messages)
      let final := groups.foldl
        (fun t fg => ChangeTracker.process_messages t fg.1 fg.2)
        (ChangeTracker.init baseline)
      .ok final.diff_report

/-! ## Report writing (`DefaultChangeReportWriter` and the CLI wiring) -/

/-- An output stream of the process. -/
inductive OutStream where
  | stdout
  | stderr
  deriving DecidableEq, Repr

/-- The stream behind the default `_write` argument of
`DefaultChangeReportWriter.__init__` (and likewise of
`ColorChangeReportWriter.__init__`): the source says
`_write: Callable[[str], Any] = sys.stdout.write`. -/
def defaultChangeReportWriterStream : OutStream := .stdout

/-- The stream the diff report goes to when `cli.py`'s `_parse_command` runs
with `--diff-old-report`: it constructs `ColorChangeReportWriter()` (with
`--color`) or `DefaultChangeReportWriter()` (without), in both cases passing
no `_write`, so both fall back to `sys.stdout.write`. -/
def cliChangeReportStream (color : Bool) : OutStream :=
  match color with
  | true => defaultChangeReportWriterStream
  | false => defaultChangeReportWriterStream

/-- Decimal rendering of a `Nat` (for the f-strings in the writer).  Fuel is
the number itself, which bounds the digit count. -/
def natDigitsAux : Nat → Nat → Str → Str
  | 0, _, acc => acc
  | fuel + 1, n, acc =>
      if n = 0 then acc
      else natDigitsAux fuel (n / 10) (Char.ofNat (48 + n % 10) :: acc)

/-- Decimal rendering of a `Nat`. -/
def natRepr (n : Nat) : Str :=
  if n = 0 then ['0'] else natDigitsAux n n []

/-- `"\n".join(lines)`. -/
def joinNewline : List Str → Str
  | [] => []
  | [x] => x
  | x :: rest => x ++ '\n' :: joinNewline rest

/-- `DefaultChangeReportWriter.write_report`, as the sequence of chunks
passed to `self.write`:

```python
new_errors = "\n".join(diff.error_lines)
if new_errors:
    self.write(new_errors + "\n\n")
self.write(f"Fixed errors: {diff.num_fixed_errors}\n")
self.write(f"New errors: {diff.num_new_errors}\n")
self.write(f"Total errors: {diff.total_errors}\n")
```
-/
def DefaultChangeReportWriter.write_report (diff : DiffReport) : List Str :=
  let new_errors := joinNewline diff.error_lines
  (if new_errors = [] then [] else [new_errors ++ strL "\n\n"]) ++
    [strL "Fixed errors: " ++ natRepr diff.num_fixed_errors ++ ['\n'],
     strL "New errors: " ++ natRepr diff.num_new_errors ++ ['\n'],
     strL "Total errors: " ++ natRepr diff.total_errors ++ ['\n']]

/-! ## Characterization of `from_line` by the shapes of its two splits -/

theorem from_line_ok_of_splits (line loc sev msg f n : Str) (rest : List Str) (k : Int)
    (h1 : pySplit2 (pyStrip line) = [loc, sev, msg])
    (h2 : pySplitAll [':'] loc = f :: n :: rest)
    (h3 : pyInt n = some k) :
    MypyMessage.from_line line =
      .ok { filename := f, line_number := k, message := msg,
            message_type := sev, raw := pyRstrip line } := by
  simp only [MypyMessage.from_line, h1, h2, h3]

theorem from_line_valueError_of_badInt (line loc sev msg f n : Str) (rest : List Str)
    (h1 : pySplit2 (pyStrip line) = [loc, sev, msg])
    (h2 : pySplitAll [':'] loc = f :: n :: rest)
    (h3 : pyInt n = none) :
    MypyMessage.from_line line = .error .unhandledValueError := by
  simp only [MypyMessage.from_line, h1, h2, h3]

theorem from_line_missing_of_one_part (line loc sev msg f : Str)
    (h1 : pySplit2 (pyStrip line) = [loc, sev, msg])
    (h2 : pySplitAll [':'] loc = [f]) :
    MypyMessage.from_line line = .error .filenameWithoutLineNumber := by
  simp only [MypyMessage.from_line, h1, h2]

theorem from_line_skip_of_not_three (line : Str)
    (h : (pySplit2 (pyStrip line)).length ≠ 3) :
    MypyMessage.from_line line = .error .skipLine := by
  unfold MypyMessage.from_line
  rcases hs : pySplit2 (pyStrip line) with _ | ⟨a, _ | ⟨b, _ | ⟨c, _ | ⟨d, t⟩⟩⟩⟩
  · rfl
  · rfl
  · rfl
  · exact absurd (by rw [hs]; rfl) h
  · rfl

theorem from_lines_cons_skip (line : Str) (rest : List Str)
    (h : MypyMessage.from_line line = .error .skipLine) :
    MypyMessage.from_lines (line :: rest) = MypyMessage.from_lines rest := by
  simp only [MypyMessage.from_lines, h]

theorem from_lines_cons_missing (line : Str) (rest : List Str)
    (h : MypyMessage.from_line line = .error .filenameWithoutLineNumber) :
    MypyMessage.from_lines (line :: rest) = .error .filenameWithoutLineNumber := by
  simp only [MypyMessage.from_lines, h]

/-- **C5.** When lazily parsing a sequence of raw lines, every line that does
not split into exactly three parts on the first two `": "` delimiters is
silently discarded from the output sequence, while a diagnostic line whose
location contains a filename but no line number raises the distinct
missing-line-number failure, which propagates to the caller and halts the
iteration rather than being skipped. -/
theorem C5_skip_vs_fatal :
    (∀ (line : Str) (rest : List Str),
       (pySplit2 (pyStrip line)).length ≠ 3 →
       MypyMessage.from_line line = .error .skipLine ∧
       MypyMessage.from_lines (line :: rest) = MypyMessage.from_lines rest) ∧
    (∀ (line loc sev msg f : Str) (rest : List Str),
       pySplit2 (pyStrip line) = [loc, sev, msg] →
       pySplitAll [':'] loc = [f] →
       MypyMessage.from_line line = .error .filenameWithoutLineNumber ∧
       MypyMessage.from_lines (line :: rest) = .error .filenameWithoutLineNumber) := by
  constructor
  · intro line rest h
    have h1 := from_line_skip_of_not_three line h
    exact ⟨h1, from_lines_cons_skip line rest h1⟩
  · intro line loc sev msg f rest h1 h2
    have h3 := from_line_missing_of_one_part line loc sev msg f h1 h2
    exact ⟨h3, from_lines_cons_missing line rest h3⟩

/-- Witness for C5: the mypy summary line is skipped (parsing of the rest is
unaffected), while a file-level note without a line number aborts the whole
iteration with the missing-line-number failure. -/
theorem C5_skip_vs_fatal_witness :
    MypyMessage.from_lines
        [strL "Found 2 errors in 1 file (checked 3 source files)",
         strL "a.py:1: error: bad type"] =
      MypyMessage.from_lines [strL "a.py:1: error: bad type"] ∧
    MypyMessage.from_lines
        [strL "test.py: note: file-level problem", strL "a.py:1: error: bad type"] =
      .error .filenameWithoutLineNumber :=
  ⟨(C5_skip_vs_fatal.1 (strL "Found 2 errors in 1 file (checked 3 source files)")
      [strL "a.py:1: error: bad type"] (by decide)).2,
   (C5_skip_vs_fatal.2 (strL "test.py: note: file-level problem")
      (strL "test.py") (strL "note") (strL "file-level problem") (strL "test.py")
      [strL "a.py:1: error: bad type"] rfl rfl).2⟩

/-- **C6, counterexample.** The claim says a location splitting into any
number of parts other than two or three never produces a record; but the
location `"a.py:1:2:3"` splits into four parts and `from_line` still
produces a record (the unpacking `filename, line_number, *_` accepts any
split of two or more parts). -/
theorem C6_counterexample :
    (pySplitAll [':'] (strL "a.py:1:2:3")).length = 4 ∧
    MypyMessage.from_line (strL "a.py:1:2:3: error: msg") =
      .ok { filename := strL "a.py", line_number := 1, message := strL "msg",
            message_type := strL "error", raw := strL "a.py:1:2:3: error: msg" } := by
  exact ⟨by decide, rfl⟩

/-- **C6, amended.** Splitting the location component on `':'` accepts any
number of parts greater than or equal to two — the first part is the file,
the second the line number, and everything after the second part (a column,
or any further components) is discarded, parsing succeeding identically to
the two-part form; a one-part location produces no record (it raises the
missing-line-number failure). -/
theorem C6_location_split_amended :
    (∀ (line loc sev msg f n : Str) (rest : List Str) (k : Int),
       pySplit2 (pyStrip line) = [loc, sev, msg] →
       pySplitAll [':'] loc = f :: n :: rest →
       pyInt n = some k →
       MypyMessage.from_line line =
         .ok { filename := f, line_number := k, message := msg,
               message_type := sev, raw := pyRstrip line }) ∧
    (∀ (line loc sev msg f : Str),
       pySplit2 (pyStrip line) = [loc, sev, msg] →
       pySplitAll [':'] loc = [f] →
       MypyMessage.from_line line = .error .filenameWithoutLineNumber) := by
  constructor
  · intro line loc sev msg f n rest k h1 h2 h3
    exact from_line_ok_of_splits line loc sev msg f n rest k h1 h2 h3
  · intro line loc sev msg f h1 h2
    exact from_line_missing_of_one_part line loc sev msg f h1 h2

/-- Witness for the amended C6: a three-part location (`file:line:column`)
parses with the column discarded, exactly like the two-part form, and a
one-part location fails with the missing-line-number error. -/
theorem C6_location_split_amended_witness :
    MypyMessage.from_line (strL "a.py:7:13: error: m") =
      .ok { filename := strL "a.py", line_number := 7, message := strL "m",
            message_type := strL "error", raw := strL "a.py:7:13: error: m" } ∧
    MypyMessage.from_line (strL "b.py: note: x") = .error .filenameWithoutLineNumber :=
  ⟨C6_location_split_amended.1 (strL "a.py:7:13: error: m")
      (strL "a.py:7:13") (strL "error") (strL "m") (strL "a.py") (strL "7") [strL "13"] 7
      rfl rfl rfl,
   C6_location_split_amended.2 (strL "b.py: note: x")
      (strL "b.py") (strL "note") (strL "x") (strL "b.py") rfl rfl⟩

/-- **C9.** A line that splits into three parts on `": "` and whose location
splits into two parts on `':'`, but whose second location part is not a
decimal-integer string, fails with the unguarded integer-conversion error —
neither the skip condition nor the named missing-line-number condition, so
the classified failure taxonomy is not total over input lines. -/
theorem C9_unguarded_int_conversion :
    (pySplit2 (pyStrip (strL "a.py:abc: error: msg"))).length = 3 ∧
    (pySplitAll [':'] (strL "a.py:abc")).length = 2 ∧
    MypyMessage.from_line (strL "a.py:abc: error: msg") = .error .unhandledValueError ∧
    FromLineError.unhandledValueError ≠ .skipLine ∧
    FromLineError.unhandledValueError ≠ .filenameWithoutLineNumber := by
  exact ⟨by decide, by decide, rfl, by decide, by decide⟩

/-! ## Lemmas on the Python string primitives, leading up to C4 -/

theorem dropWhile_eq_self_of_no (p : Char → Bool) (s : Str)
    (h : ∀ c ∈ s, p c = false) : s.dropWhile p = s := by
  cases s with
  | nil => rfl
  | cons c t => simp [List.dropWhile_cons, h c (List.mem_cons_self c t)]

theorem pyStrip_eq_self (s : Str)
    (hl : s.dropWhile pyIsSpace = s)
    (ht : s.reverse.dropWhile pyIsSpace = s.reverse) : pyStrip s = s := by
  unfold pyStrip
  rw [hl, ht, List.reverse_reverse]

theorem pyRstrip_eq_self (s : Str)
    (ht : s.reverse.dropWhile pyIsSpace = s.reverse) : pyRstrip s = s := by
  unfold pyRstrip
  rw [ht, List.reverse_reverse]

theorem pyStrip_append_newline (s : Str) : pyStrip (s ++ ['\n']) = pyStrip s := by
  unfold pyStrip
  rw [List.dropWhile_append]
  by_cases h : (s.dropWhile pyIsSpace).isEmpty
  · rw [List.isEmpty_iff] at h
    simp [h, List.dropWhile, pyIsSpace]
  · simp only [h, if_false]
    simp [List.dropWhile_cons, pyIsSpace]

theorem pyRstrip_append_newline (s : Str) : pyRstrip (s ++ ['\n']) = pyRstrip s := by
  unfold pyRstrip
  simp [List.dropWhile_cons, pyIsSpace]

theorem pySplitMax_zero (sep s : Str) : pySplitMax sep 0 s = [s] := rfl

theorem pySplitMax_succ (sep : Str) (k : Nat) (s pre post : Str)
    (h : splitAtFirst sep s = some (pre, post)) :
    pySplitMax sep (k + 1) s = pre :: pySplitMax sep k post := by
  conv_lhs => unfold pySplitMax
  rw [h]

theorem pySplitMax_succ_none (sep : Str) (k : Nat) (s : Str)
    (h : splitAtFirst sep s = none) :
    pySplitMax sep (k + 1) s = [s] := by
  conv_lhs => unfold pySplitMax
  rw [h]

theorem csFree_cons_of_ne (c : Char) (s : Str) (hc : c ≠ ':') :
    csFree (c :: s) = csFree s := by
  cases s with
  | nil => simp [csFree]
  | cons d rest => simp [csFree, hc]

theorem csFree_tail (c : Char) (s : Str) (h : csFree (c :: s) = true) :
    csFree s = true := by
  cases s with
  | nil => rfl
  | cons d rest =>
      simp only [csFree, Bool.and_eq_true] at h
      exact h.2

theorem csFree_of_no_colon (s : Str) (h : ':' ∉ s) : csFree s = true := by
  induction s with
  | nil => rfl
  | cons c rest ih =>
      have hc : c ≠ ':' := by
        intro e
        exact h (by rw [e]; exact List.mem_cons_self ':' rest)
      rw [csFree_cons_of_ne c rest hc]
      exact ih (fun hm => h (List.mem_cons_of_mem c hm))

theorem csFree_append_of_no_colon (xs ys : Str) (h : ':' ∉ xs) :
    csFree (xs ++ ys) = csFree ys := by
  induction xs with
  | nil => rfl
  | cons c xs' ih =>
      have hc : c ≠ ':' := by
        intro e
        exact h (by rw [e]; exact List.mem_cons_self ':' xs')
      rw [List.cons_append, csFree_cons_of_ne c _ hc]
      exact ih (fun hm => h (List.mem_cons_of_mem c hm))

theorem leadsWith_colonSpace_false (c : Char) (xs' ys : Str)
    (h : csFree (c :: xs') = true) :
    leadsWith [':', ' '] (c :: (xs' ++ ':' :: ' ' :: ys)) = false := by
  by_cases hc : c = ':'
  · subst hc
    cases xs' with
    | nil => simp [leadsWith]
    | cons d xs'' =>
        have hd : d ≠ ' ' := by
          intro e
          subst e
          simp [csFree] at h
        have hd' : ¬ (' ' = d) := fun e => hd e.symm
        simp [leadsWith, hd']
  · have hc' : ¬ (':' = c) := fun e => hc e.symm
    simp [leadsWith, hc']

theorem splitAtFirst_colonSpace (xs ys : Str) (h : csFree xs = true) :
    splitAtFirst [':', ' '] (xs ++ ':' :: ' ' :: ys) = some (xs, ys) := by
  induction xs with
  | nil => simp [splitAtFirst, leadsWith]
  | cons c xs' ih =>
      have hx' : csFree xs' = true := csFree_tail c xs' h
      have hlw := leadsWith_colonSpace_false c xs' ys h
      rw [List.cons_append]
      simp [splitAtFirst, hlw, ih hx']

theorem splitAtFirst_colon_append (xs ys : Str) (h : ':' ∉ xs) :
    splitAtFirst [':'] (xs ++ ':' :: ys) = some (xs, ys) := by
  induction xs with
  | nil => simp [splitAtFirst, leadsWith]
  | cons c xs' ih =>
      have hc : ¬ (':' = c) := by
        intro e
        exact h (by rw [← e]; exact List.mem_cons_self ':' xs')
      rw [List.cons_append]
      simp [splitAtFirst, leadsWith, hc,
        ih (fun hm => h (List.mem_cons_of_mem c hm))]

theorem splitAtFirst_colon_none (xs : Str) (h : ':' ∉ xs) :
    splitAtFirst [':'] xs = none := by
  induction xs with
  | nil => rfl
  | cons c xs' ih =>
      have hc : ¬ (':' = c) := by
        intro e
        exact h (by rw [← e]; exact List.mem_cons_self ':' xs')
      simp [splitAtFirst, leadsWith, hc,
        ih (fun hm => h (List.mem_cons_of_mem c hm))]

theorem char_facts_of_digit (c : Char) (h : c.isDigit = true) :
    c ≠ ':' ∧ c ≠ ' ' ∧ c ≠ '+' ∧ c ≠ '-' ∧ pyIsSpace c = false := by
  refine ⟨?_, ?_, ?_, ?_, ?_⟩
  · intro e; subst e; exact absurd h (by decide)
  · intro e; subst e; exact absurd h (by decide)
  · intro e; subst e; exact absurd h (by decide)
  · intro e; subst e; exact absurd h (by decide)
  · by_contra hne
    have hps : pyIsSpace c = true := by
      revert hne
      cases pyIsSpace c <;> simp
    simp only [pyIsSpace, Bool.or_eq_true, decide_eq_true_eq] at hps
    rcases hps with ((((e | e) | e) | e) | e) | e <;> subst e <;> exact absurd h (by decide)

theorem pyDigitsAux_digits (cs : Str) (acc : Nat)
    (h : ∀ c ∈ cs, c.isDigit = true) :
    pyDigitsAux cs acc = some (cs.foldl (fun a c => a * 10 + (c.toNat - 48)) acc) := by
  induction cs generalizing acc with
  | nil => rfl
  | cons c cs' ih =>
      have hc := h c (List.mem_cons_self c cs')
      have step : pyDigitsAux (c :: cs') acc = pyDigitsAux cs' (acc * 10 + (c.toNat - 48)) := by
        conv_lhs => unfold pyDigitsAux
        simp [hc]
      rw [step, List.foldl_cons]
      exact ih _ (fun d hd => h d (List.mem_cons_of_mem c hd))

theorem pyInt_digits (ds : Str) (hne : ds ≠ [])
    (h : ∀ c ∈ ds, c.isDigit = true) :
    pyInt ds = some (Int.ofNat (decimalValue ds)) := by
  have hnospace : ∀ c ∈ ds, pyIsSpace c = false :=
    fun c hc => (char_facts_of_digit c (h c hc)).2.2.2.2
  have hstrip : pyStrip ds = ds :=
    pyStrip_eq_self ds (dropWhile_eq_self_of_no _ _ hnospace)
      (dropWhile_eq_self_of_no _ _ (fun c hc => hnospace c (List.mem_reverse.mp hc)))
  cases ds with
  | nil => exact absurd rfl hne
  | cons c cs =>
      have hc := h c (List.mem_cons_self c cs)
      obtain ⟨-, -, hplus, hminus, -⟩ := char_facts_of_digit c hc
      unfold pyInt
      rw [hstrip]
      simp only [hplus, hminus, if_false]
      rw [show pyDigitsStart (c :: cs) = pyDigitsAux cs (c.toNat - 48) by
        simp [pyDigitsStart, hc]]
      rw [pyDigitsAux_digits cs _ (fun d hd => h d (List.mem_cons_of_mem c hd))]
      simp [decimalValue]

theorem errorLine_assoc (file n msg : Str) :
    errorLine file n msg =
      (file ++ ':' :: n) ++ ':' :: ' ' :: (errorTag ++ ':' :: ' ' :: msg) := by
  simp [errorLine]

theorem pySplit2_errorLine (file ds msg : Str) (hfile : ':' ∉ file)
    (hne : ds ≠ []) (hdigits : ∀ c ∈ ds, c.isDigit = true) :
    pySplit2 (errorLine file ds msg) = [file ++ ':' :: ds, errorTag, msg] := by
  have hds_nocolon : ':' ∉ ds := by
    intro hm
    exact absurd (hdigits ':' hm) (by decide)
  have hcs_loc : csFree (file ++ ':' :: ds) = true := by
    rw [csFree_append_of_no_colon file _ hfile]
    cases ds with
    | nil => exact absurd rfl hne
    | cons d ds' =>
        have hd : d ≠ ' ' :=
          (char_facts_of_digit d (hdigits d (List.mem_cons_self d ds'))).2.1
        have hrest : csFree (d :: ds') = true :=
          csFree_of_no_colon _ hds_nocolon
        simp [csFree, hd, hrest]
  have hsf1 : splitAtFirst [':', ' '] (errorLine file ds msg) =
      some (file ++ ':' :: ds, errorTag ++ ':' :: ' ' :: msg) := by
    rw [errorLine_assoc]
    exact splitAtFirst_colonSpace _ _ hcs_loc
  have hsf2 : splitAtFirst [':', ' '] (errorTag ++ ':' :: ' ' :: msg) =
      some (errorTag, msg) :=
    splitAtFirst_colonSpace errorTag msg (by decide)
  have e1 : pySplit2 (errorLine file ds msg) =
      (file ++ ':' :: ds) :: pySplitMax [':', ' '] 1 (errorTag ++ ':' :: ' ' :: msg) :=
    pySplitMax_succ _ 1 _ _ _ hsf1
  have e2 : pySplitMax [':', ' '] 1 (errorTag ++ ':' :: ' ' :: msg) =
      errorTag :: pySplitMax [':', ' '] 0 msg :=
    pySplitMax_succ _ 0 _ _ _ hsf2
  rw [e1, e2, pySplitMax_zero]

theorem pySplitAll_location (file ds : Str) (hfile : ':' ∉ file)
    (hds_nocolon : ':' ∉ ds) :
    pySplitAll [':'] (file ++ ':' :: ds) = [file, ds] := by
  have hlen : (file ++ ':' :: ds).length = file.length + ds.length + 1 := by
    simp [List.length_append]
    omega
  unfold pySplitAll
  rw [hlen]
  rw [pySplitMax_succ [':'] (file.length + ds.length) _ file ds
    (splitAtFirst_colon_append file ds hfile)]
  cases h : file.length + ds.length with
  | zero => rfl
  | succ k =>
      rw [pySplitMax_succ_none [':'] k ds (splitAtFirst_colon_none ds hds_nocolon)]

/-- **C4.** For every valid diagnostic line `"<file>:<n>: error: <msg>"`
(file containing no `':'`, `n` a nonempty decimal digit string, no stray
leading/trailing whitespace around the line's content), parsing yields a
record with `line_number` the value of `n`, severity `"error"`, the message
kept verbatim (even when it contains the `": "` delimiter — only the first
two delimiter occurrences are split on), and `raw` equal to the input with
the trailing newline stripped. -/
theorem C4_valid_error_line (file ds msg : Str)
    (hfile : ':' ∉ file)
    (hne : ds ≠ []) (hdigits : ∀ c ∈ ds, c.isDigit = true)
    (hlead : (errorLine file ds msg).dropWhile pyIsSpace = errorLine file ds msg)
    (htrail : (errorLine file ds msg).reverse.dropWhile pyIsSpace =
      (errorLine file ds msg).reverse) :
    MypyMessage.from_line (errorLine file ds msg ++ ['\n']) =
      .ok { filename := file, line_number := Int.ofNat (decimalValue ds),
            message := msg, message_type := errorTag,
            raw := errorLine file ds msg } ∧
    MypyMessage.from_line (errorLine file ds msg) =
      .ok { filename := file, line_number := Int.ofNat (decimalValue ds),
            message := msg, message_type := errorTag,
            raw := errorLine file ds msg } := by
  have hds_nocolon : ':' ∉ ds := by
    intro hm
    exact absurd (hdigits ':' hm) (by decide)
  have hstrip : pyStrip (errorLine file ds msg) = errorLine file ds msg :=
    pyStrip_eq_self _ hlead htrail
  have hstrip' : pyStrip (errorLine file ds msg ++ ['\n']) = errorLine file ds msg := by
    rw [pyStrip_append_newline, hstrip]
  have hr : pyRstrip (errorLine file ds msg) = errorLine file ds msg :=
    pyRstrip_eq_self _ htrail
  have hr' : pyRstrip (errorLine file ds msg ++ ['\n']) = errorLine file ds msg := by
    rw [pyRstrip_append_newline, hr]
  have hsplit2 := pySplit2_errorLine file ds msg hfile hne hdigits
  have hloc := pySplitAll_location file ds hfile hds_nocolon
  have hint := pyInt_digits ds hne hdigits
  constructor
  · have h := from_line_ok_of_splits (errorLine file ds msg ++ ['\n'])
      (file ++ ':' :: ds) errorTag msg file ds [] (Int.ofNat (decimalValue ds))
      (by rw [hstrip']; exact hsplit2) hloc hint
    rw [hr'] at h
    exact h
  · have h := from_line_ok_of_splits (errorLine file ds msg)
      (file ++ ':' :: ds) errorTag msg file ds [] (Int.ofNat (decimalValue ds))
      (by rw [hstrip]; exact hsplit2) hloc hint
    rw [hr] at h
    exact h

/-- Witness for C4 at `"a.py:12: error: bad type\n"`. -/
theorem C4_valid_error_line_witness :
    errorLine (strL "a.py") (strL "12") (strL "bad type") = strL "a.py:12: error: bad type" ∧
    decimalValue (strL "12") = 12 ∧
    MypyMessage.from_line (errorLine (strL "a.py") (strL "12") (strL "bad type") ++ ['\n']) =
      .ok { filename := strL "a.py", line_number := Int.ofNat (decimalValue (strL "12")),
            message := strL "bad type", message_type := errorTag,
            raw := errorLine (strL "a.py") (strL "12") (strL "bad type") } :=
  ⟨rfl, rfl,
   (C4_valid_error_line (strL "a.py") (strL "12") (strL "bad type")
      (by decide) (by decide) (by decide) (by decide) (by decide)).1⟩

/-! ## Counter arithmetic (towards C1) -/

theorem counterGet_nil {K : Type} [DecidableEq K] (k : K) :
    counterGet ([] : Counter K) k = 0 := rfl

theorem dictGet_cons {K V : Type} [DecidableEq K] (k' : K) (v : V)
    (d : Dict K V) (k : K) :
    dictGet ((k', v) :: d) k = if k' = k then some v else dictGet d k := rfl

theorem dictPop_cons {K V : Type} [DecidableEq K] (k' : K) (v : V)
    (d : Dict K V) (k : K) :
    dictPop ((k', v) :: d) k =
      if k' = k then (some v, d)
      else ((dictPop d k).1, (k', v) :: (dictPop d k).2) := rfl

theorem counterGet_cons {K : Type} [DecidableEq K] (k' : K) (v : Nat)
    (c : Counter K) (k : K) :
    counterGet ((k', v) :: c) k = if k' = k then v else counterGet c k := by
  unfold counterGet
  rw [dictGet_cons]
  by_cases h : k' = k <;> simp [h]

theorem sumValues_cons {K : Type} (kv : K × Nat) (c : Counter K) :
    sumValues (kv :: c) = kv.2 + sumValues c := by
  simp [sumValues]

theorem sum_map_add {α : Type} (l : List α) (f g : α → Nat) :
    (l.map (fun x => f x + g x)).sum = (l.map f).sum + (l.map g).sum := by
  induction l with
  | nil => rfl
  | cons x xs ih =>
      simp only [List.map_cons, List.sum_cons, ih]
      omega

theorem sumValues_filter_pos {K : Type} (c : Counter K) :
    sumValues (c.filter (fun kv => 0 < kv.2)) = sumValues c := by
  induction c with
  | nil => rfl
  | cons kv c ih =>
      by_cases h : 0 < kv.2
      · simp [List.filter_cons, h, sumValues_cons, ih]
      · have h0 : kv.2 = 0 := by omega
        simp [List.filter_cons, h, sumValues_cons, ih, h0]

theorem counterSub_sum {K : Type} [DecidableEq K] (a b : Counter K) :
    sumValues (counterSub a b) =
      (a.map (fun kv => kv.2 - counterGet b kv.1)).sum := by
  unfold counterSub
  rw [sumValues_filter_pos]
  simp [sumValues, List.map_map]
  rfl

/-- First half of the C1 multiset law, over `a`'s entries; no key-uniqueness
is needed because both sides are sums over the same entry list. -/
theorem counterSub_add_matched {K : Type} [DecidableEq K] (a b : Counter K) :
    sumValues (counterSub a b) + matchedCount a b = sumValues a := by
  rw [counterSub_sum]
  unfold matchedCount
  rw [← sum_map_add]
  unfold sumValues
  congr 1
  apply List.map_congr_left
  intro kv _
  omega

theorem dictPop_fst {K V : Type} [DecidableEq K] (d : Dict K V) (k : K) :
    (dictPop d k).1 = dictGet d k := by
  induction d with
  | nil => rfl
  | cons kv rest ih =>
      obtain ⟨k', v⟩ := kv
      by_cases h : k' = k <;> simp [dictPop, dictGet, h, ih]

theorem eraseKey_cons {K V : Type} [DecidableEq K] (q : K) (v : V)
    (d : Dict K V) (k : K) :
    eraseKey ((q, v) :: d) k = if q = k then d else (q, v) :: eraseKey d k := by
  unfold eraseKey
  rw [dictPop_cons]
  by_cases h : q = k <;> simp [h]

theorem dictGet_eraseKey_ne {K V : Type} [DecidableEq K] (d : Dict K V)
    (k k' : K) (h : k' ≠ k) :
    dictGet (eraseKey d k) k' = dictGet d k' := by
  induction d with
  | nil => rfl
  | cons qv rest ih =>
      obtain ⟨q, v⟩ := qv
      rw [eraseKey_cons]
      by_cases hq : q = k
      · subst hq
        have : ¬ (q = k') := fun e => h e.symm
        simp [dictGet, this]
      · simp [dictGet, hq, ih]

theorem dictKeys_eraseKey_sublist {K V : Type} [DecidableEq K] (d : Dict K V) (k : K) :
    List.Sublist (dictKeys (eraseKey d k)) (dictKeys d) := by
  induction d with
  | nil => exact List.Sublist.refl _
  | cons qv rest ih =>
      obtain ⟨q, v⟩ := qv
      rw [eraseKey_cons]
      by_cases hq : q = k
      · simp only [hq, if_true]
        exact List.sublist_cons_self _ _
      · simp only [hq, if_false, dictKeys, List.map_cons]
        exact ih.cons₂ q

theorem NodupKeys_eraseKey {K V : Type} [DecidableEq K] (d : Dict K V) (k : K)
    (h : NodupKeys d) : NodupKeys (eraseKey d k) :=
  (dictKeys_eraseKey_sublist d k).nodup h

theorem NodupKeys_cons_iff {K V : Type} (kv : K × V) (d : Dict K V) :
    NodupKeys (kv :: d) ↔ kv.1 ∉ dictKeys d ∧ NodupKeys d := by
  unfold NodupKeys dictKeys
  simp

theorem counterGet_eq_zero_of_not_mem {K : Type} [DecidableEq K]
    (c : Counter K) (k : K) (h : k ∉ dictKeys c) : counterGet c k = 0 := by
  induction c with
  | nil => rfl
  | cons qv rest ih =>
      obtain ⟨q, v⟩ := qv
      have hq : ¬ (q = k) := by
        intro e
        exact h (by rw [e]; exact List.mem_cons_self k _)
      rw [counterGet_cons, if_neg hq]
      exact ih (fun hm => h (List.mem_cons_of_mem _ hm))

theorem matchedCount_nil_right {K : Type} [DecidableEq K] (b : Counter K) :
    matchedCount b [] = 0 := by
  unfold matchedCount
  induction b with
  | nil => rfl
  | cons kv rest ih => simp [counterGet_nil, ih]

theorem matchedCount_cons_left {K : Type} [DecidableEq K] (q : K) (w : Nat)
    (b a : Counter K) :
    matchedCount ((q, w) :: b) a = min w (counterGet a q) + matchedCount b a := by
  simp [matchedCount]

theorem matchedCount_congr_right {K : Type} [DecidableEq K] (a b b2 : Counter K)
    (h : ∀ kv ∈ a, counterGet b kv.1 = counterGet b2 kv.1) :
    matchedCount a b = matchedCount a b2 := by
  unfold matchedCount
  congr 1
  apply List.map_congr_left
  intro kv hm
  rw [h kv hm]

/-- Peeling the head of the right operand of `matchedCount`, assuming the
right operand is a well-formed dict. -/
theorem matchedCount_right_cons {K : Type} [DecidableEq K] (b : Counter K)
    (k : K) (v : Nat) (a : Counter K) (hb : NodupKeys b) :
    matchedCount b ((k, v) :: a) =
      min (counterGet b k) v + matchedCount (eraseKey b k) a := by
  induction b with
  | nil => simp [matchedCount, counterGet_nil, eraseKey, dictPop]
  | cons qw b' ih =>
      obtain ⟨q, w⟩ := qw
      obtain ⟨hqnot, hb'⟩ := (NodupKeys_cons_iff (q, w) b').mp hb
      by_cases hq : q = k
      · subst hq
        rw [matchedCount_cons_left, counterGet_cons, if_pos rfl,
          eraseKey_cons, if_pos rfl, counterGet_cons, if_pos rfl]
        have hcongr : matchedCount b' ((q, v) :: a) = matchedCount b' a := by
          apply matchedCount_congr_right
          intro kv hm
          rw [counterGet_cons]
          have : ¬ (q = kv.1) := by
            intro e
            exact hqnot (by rw [e]; exact List.mem_map_of_mem (fun x => x.1) hm)
          rw [if_neg this]
        rw [hcongr]
      · have hkq : ¬ (k = q) := fun e => hq e.symm
        rw [matchedCount_cons_left, counterGet_cons, if_neg hkq, ih hb',
          counterGet_cons, if_neg hq, eraseKey_cons, if_neg hq,
          matchedCount_cons_left]
        omega

/-- `matchedCount` is symmetric on well-formed dicts: a key present on only
one side contributes `min(·, 0) = 0`. -/
theorem matchedCount_comm {K : Type} [DecidableEq K] (a b : Counter K)
    (ha : NodupKeys a) (hb : NodupKeys b) :
    matchedCount a b = matchedCount b a := by
  induction a generalizing b with
  | nil => rw [matchedCount_nil_right b]; rfl
  | cons kv a' ih =>
      obtain ⟨k, v⟩ := kv
      obtain ⟨hknot, ha'⟩ := (NodupKeys_cons_iff (k, v) a').mp ha
      rw [matchedCount_cons_left, matchedCount_right_cons b k v a' hb]
      have hcongr : matchedCount a' b = matchedCount a' (eraseKey b k) := by
        apply matchedCount_congr_right
        intro kv hm
        have hne : kv.1 ≠ k := by
          intro e
          exact hknot (by rw [← e]; exact List.mem_map_of_mem (fun x => x.1) hm)
        unfold counterGet
        rw [dictGet_eraseKey_ne b k kv.1 hne]
      rw [hcongr, ih (eraseKey b k) ha' (NodupKeys_eraseKey b k hb), Nat.min_comm]

theorem counterSub_keys_sublist {K : Type} [DecidableEq K] (a b : Counter K) :
    List.Sublist (dictKeys (counterSub a b)) (dictKeys a) := by
  unfold counterSub dictKeys
  have h1 : List.Sublist
      (List.map (fun kv => kv.1)
        ((a.map (fun kv => (kv.1, kv.2 - counterGet b kv.1))).filter (fun kv => 0 < kv.2)))
      (List.map (fun kv => kv.1)
        (a.map (fun kv => (kv.1, kv.2 - counterGet b kv.1)))) :=
    (List.filter_sublist _).map _
  have h2 : List.map (fun kv => kv.1)
        (a.map (fun kv : K × Nat => (kv.1, kv.2 - counterGet b kv.1)))
      = List.map (fun kv : K × Nat => kv.1) a := by
    rw [List.map_map]
    rfl
  exact h2 ▸ h1

theorem counterGet_counterSub {K : Type} [DecidableEq K] (a b : Counter K)
    (k : K) (ha : NodupKeys a) :
    counterGet (counterSub a b) k = counterGet a k - counterGet b k := by
  induction a with
  | nil => simp [counterSub, counterGet_nil]
  | cons qv a' ih =>
      obtain ⟨q, v⟩ := qv
      obtain ⟨hqnot, ha'⟩ := (NodupKeys_cons_iff (q, v) a').mp ha
      have hsubcons : counterSub ((q, v) :: a') b =
          if 0 < v - counterGet b q
          then (q, v - counterGet b q) :: counterSub a' b
          else counterSub a' b := by
        unfold counterSub
        rw [List.map_cons, List.filter_cons]
        by_cases h : 0 < v - counterGet b q <;> simp [h]
      rw [hsubcons, counterGet_cons]
      by_cases hq : q = k
      · subst hq
        have hget0 : counterGet a' q = 0 := counterGet_eq_zero_of_not_mem a' q hqnot
        have hget0' : counterGet (counterSub a' b) q = 0 :=
          counterGet_eq_zero_of_not_mem _ q
            (fun hm => hqnot ((counterSub_keys_sublist a' b).mem hm))
        by_cases h : 0 < v - counterGet b q
        · rw [if_pos h, counterGet_cons, if_pos rfl, if_pos rfl]
        · rw [if_neg h, if_pos rfl, hget0']
          omega
      · by_cases h : 0 < v - counterGet b q
        · rw [if_pos h, counterGet_cons, if_neg hq, if_neg hq, ih ha']
        · rw [if_neg h, if_neg hq, ih ha']

/-! ## The Counter built by a batch is a well-formed dict -/

theorem dictKeys_counterUpdate {K : Type} [DecidableEq K] (c : Counter K) (k : K) :
    dictKeys (counterUpdate c k) =
      if k ∈ dictKeys c then dictKeys c else dictKeys c ++ [k] := by
  induction c with
  | nil => rfl
  | cons qv rest ih =>
      obtain ⟨q, v⟩ := qv
      by_cases hq : q = k
      · subst hq
        simp [counterUpdate, dictKeys]
      · have hq' : ¬ (k = q) := fun e => hq e.symm
        simp only [counterUpdate, if_neg hq, dictKeys, List.map_cons] at *
        rw [ih]
        by_cases hm : k ∈ List.map (fun x => x.1) rest <;>
          simp [hm, hq', List.mem_cons]

theorem NodupKeys_counterUpdate {K : Type} [DecidableEq K] (c : Counter K)
    (k : K) (h : NodupKeys c) : NodupKeys (counterUpdate c k) := by
  unfold NodupKeys
  rw [dictKeys_counterUpdate]
  by_cases hm : k ∈ dictKeys c
  · simp only [hm, if_true]
    exact h
  · simp only [hm, if_false]
    simp only [List.nodup_append, List.nodup_cons, List.not_mem_nil,
      not_false_iff, List.nodup_nil, and_true, true_and]
    refine ⟨h, ?_⟩
    intro x hx e
    rw [List.mem_singleton] at e
    subst e
    exact hm hx

theorem NodupKeys_errorFrequencies (messages : List MypyMessage) :
    NodupKeys (errorFrequencies messages) := by
  unfold errorFrequencies
  have main : ∀ (c : Counter Str), NodupKeys c →
      NodupKeys (messages.foldl
        (fun ef m => if m.message_type = errorTag then counterUpdate ef m.message else ef) c) := by
    induction messages with
    | nil => intro c hc; exact hc
    | cons m ms ih =>
        intro c hc
        rw [List.foldl_cons]
        by_cases hm : m.message_type = errorTag
        · simp only [hm, if_pos]
          exact ih _ (NodupKeys_counterUpdate c m.message hc)
        · simp only [hm, if_neg, ite_false]
          exact ih _ hc
  exact main [] (by simp [NodupKeys, dictKeys])

theorem sumValues_counterUpdate {K : Type} [DecidableEq K] (c : Counter K) (k : K) :
    sumValues (counterUpdate c k) = sumValues c + 1 := by
  induction c with
  | nil => rfl
  | cons qv rest ih =>
      obtain ⟨q, v⟩ := qv
      by_cases hq : q = k <;>
        simp [counterUpdate, hq, sumValues_cons, ih] <;> omega

/-- The total count in the batch's error Counter is the number of
error-severity records in the batch. -/
theorem sumValues_errorFrequencies (messages : List MypyMessage) :
    sumValues (errorFrequencies messages) = countErrors messages := by
  unfold errorFrequencies countErrors
  have main : ∀ (c : Counter Str),
      sumValues (messages.foldl
        (fun ef m => if m.message_type = errorTag then counterUpdate ef m.message else ef) c)
        = sumValues c + (messages.filter (fun m => m.message_type = errorTag)).length := by
    induction messages with
    | nil => intro c; simp
    | cons m ms ih =>
        intro c
        rw [List.foldl_cons, List.filter_cons]
        by_cases hm : m.message_type = errorTag
        · rw [if_pos hm, ih (counterUpdate c m.message), sumValues_counterUpdate]
          simp [hm]
          omega
        · rw [if_neg hm, ih c]
          simp [hm]
  rw [main []]
  simp [sumValues]

/-! ## C1: the per-file multiset reconciliation law -/

theorem process_messages_num_new (t : ChangeTracker) (filename : Str)
    (messages : List MypyMessage) :
    (t.process_messages filename messages).num_new_errors =
      t.num_new_errors + sumValues (counterSub (errorFrequencies messages)
        ((dictPop t.old_report filename).1.getD [])) := rfl

theorem process_messages_num_fixed (t : ChangeTracker) (filename : Str)
    (messages : List MypyMessage) :
    (t.process_messages filename messages).num_fixed_errors =
      t.num_fixed_errors + sumValues (counterSub
        ((dictPop t.old_report filename).1.getD [])
        (errorFrequencies messages)) := rfl

theorem process_messages_num_errors (t : ChangeTracker) (filename : Str)
    (messages : List MypyMessage) :
    (t.process_messages filename messages).num_errors =
      t.num_errors + countErrors messages := rfl

theorem process_messages_old_report (t : ChangeTracker) (filename : Str)
    (messages : List MypyMessage) :
    (t.process_messages filename messages).old_report =
      (dictPop t.old_report filename).2 := rfl

/-- **C1.** For a file present in both the current run and the baseline, the
per-file reconciliation satisfies `new + matched = current_total_for_file`
and `fixed + matched = baseline_total_for_file`, where `matched` is the sum
over messages of `min(current count, baseline count)`; a message with equal
counts on both sides contributes zero to either truncated difference. -/
theorem C1_perfile_multiset_law (t : ChangeTracker) (filename : Str)
    (messages : List MypyMessage) (b : Counter Str)
    (hb : dictGet t.old_report filename = some b) (hnd : NodupKeys b) :
    ((t.process_messages filename messages).num_new_errors
        + matchedCount (errorFrequencies messages) b
      = t.num_new_errors + countErrors messages) ∧
    ((t.process_messages filename messages).num_fixed_errors
        + matchedCount (errorFrequencies messages) b
      = t.num_fixed_errors + sumValues b) ∧
    (∀ k : Str, counterGet (errorFrequencies messages) k = counterGet b k →
       counterGet (counterSub (errorFrequencies messages) b) k = 0 ∧
       counterGet (counterSub b (errorFrequencies messages)) k = 0) := by
  have hold : (dictPop t.old_report filename).1.getD [] = b := by
    rw [dictPop_fst, hb]
    rfl
  have hnd_ef := NodupKeys_errorFrequencies messages
  refine ⟨?_, ?_, ?_⟩
  · rw [process_messages_num_new, hold, Nat.add_assoc,
      counterSub_add_matched (errorFrequencies messages) b,
      sumValues_errorFrequencies]
  · rw [process_messages_num_fixed, hold, Nat.add_assoc,
      matchedCount_comm (errorFrequencies messages) b hnd_ef hnd,
      counterSub_add_matched b (errorFrequencies messages)]
  · intro k hk
    constructor
    · rw [counterGet_counterSub _ _ _ hnd_ef, hk]
      omega
    · rw [counterGet_counterSub _ _ _ hnd, hk]
      omega

/-- Witness for C1: a batch with one matched and one new error against the
baseline `{"a.py": {"bad type": 2}}`. -/
theorem C1_perfile_multiset_law_witness :
    (ChangeTracker.process_messages (ChangeTracker.init exBaseline) (strL "a.py")
        [exErr1, exErr2]).num_new_errors
      + matchedCount (errorFrequencies [exErr1, exErr2]) [(strL "bad type", 2)]
      = (ChangeTracker.init exBaseline).num_new_errors + countErrors [exErr1, exErr2] :=
  (C1_perfile_multiset_law (ChangeTracker.init exBaseline) (strL "a.py")
      [exErr1, exErr2] [(strL "bad type", 2)] rfl (by unfold NodupKeys; decide)).1

/-! ## C8 and C10: the Error Grouper -/

theorem counterGet_counterUpdate {K : Type} [DecidableEq K] (c : Counter K)
    (k' k : K) :
    counterGet (counterUpdate c k') k =
      counterGet c k + (if k' = k then 1 else 0) := by
  induction c with
  | nil =>
      rw [show counterUpdate ([] : Counter K) k' = [(k', 1)] from rfl, counterGet_cons]
      by_cases h : k' = k <;> simp [h, counterGet_nil]
  | cons qv rest ih =>
      obtain ⟨q, v⟩ := qv
      by_cases hq : q = k'
      · subst hq
        rw [show counterUpdate ((q, v) :: rest) q = (q, v + 1) :: rest from by
          simp [counterUpdate]]
        rw [counterGet_cons, counterGet_cons]
        by_cases hqk : q = k <;> simp [hqk]
      · rw [show counterUpdate ((q, v) :: rest) k' = (q, v) :: counterUpdate rest k' from by
          simp [counterUpdate, hq]]
        rw [counterGet_cons, counterGet_cons]
        by_cases hqk : q = k
        · subst hqk
          have : ¬ (k' = q) := fun e => hq e.symm
          simp [this]
        · simp [hqk, ih]

/-- The Counter built from a batch counts exactly the records with severity
`"error"` and the given exact message text. -/
theorem counterGet_errorFrequencies (messages : List MypyMessage) (k : Str) :
    counterGet (errorFrequencies messages) k =
      messages.countP (fun m => decide (m.message_type = errorTag ∧ m.message = k)) := by
  unfold errorFrequencies
  have main : ∀ (c : Counter Str),
      counterGet (messages.foldl
        (fun ef m => if m.message_type = errorTag then counterUpdate ef m.message else ef) c) k
      = counterGet c k
        + messages.countP (fun m => decide (m.message_type = errorTag ∧ m.message = k)) := by
    induction messages with
    | nil => intro c; simp [List.countP_nil]
    | cons m ms ih =>
        intro c
        rw [List.foldl_cons, List.countP_cons]
        by_cases hm : m.message_type = errorTag
        · rw [if_pos hm, ih (counterUpdate c m.message), counterGet_counterUpdate]
          by_cases hk : m.message = k
          · simp [hm, hk]
            omega
          · simp [hm, hk]
        · rw [if_neg hm, ih c]
          simp [hm]
  rw [main []]
  simp [counterGet_nil]

theorem errorFrequencies_pos (messages : List MypyMessage) :
    ∀ kv ∈ errorFrequencies messages, 0 < kv.2 := by
  unfold errorFrequencies
  have step_pos : ∀ (c : Counter Str) (k : Str),
      (∀ kv ∈ c, 0 < kv.2) → ∀ kv ∈ counterUpdate c k, 0 < kv.2 := by
    intro c
    induction c with
    | nil =>
        intro k _ kv hm
        rw [show counterUpdate ([] : Counter Str) k = [(k, 1)] from rfl] at hm
        rcases List.mem_singleton.mp hm with rfl
        omega
    | cons qv rest ih =>
        obtain ⟨q, v⟩ := qv
        intro k hc kv hm
        by_cases hq : q = k
        · subst hq
          rw [show counterUpdate ((q, v) :: rest) q = (q, v + 1) :: rest from by
            simp [counterUpdate]] at hm
          rcases List.mem_cons.mp hm with rfl | hm'
          · omega
          · exact hc kv (List.mem_cons_of_mem _ hm')
        · rw [show counterUpdate ((q, v) :: rest) k = (q, v) :: counterUpdate rest k from by
            simp [counterUpdate, hq]] at hm
          rcases List.mem_cons.mp hm with rfl | hm'
          · exact hc (q, v) (List.mem_cons_self _ _)
          · exact ih k (fun x hx => hc x (List.mem_cons_of_mem _ hx)) kv hm'
  have main : ∀ (c : Counter Str), (∀ kv ∈ c, 0 < kv.2) →
      ∀ kv ∈ messages.foldl
        (fun ef m => if m.message_type = errorTag then counterUpdate ef m.message else ef) c,
        0 < kv.2 := by
    induction messages with
    | nil => intro c hc; exact hc
    | cons m ms ih =>
        intro c hc
        rw [List.foldl_cons]
        by_cases hm : m.message_type = errorTag
        · rw [if_pos hm]
          exact ih _ (step_pos c m.message hc)
        · rw [if_neg hm]
          exact ih _ hc
  exact main [] (by intro kv h; cases h)

/-- The Counter of a batch is empty exactly when the batch has no
error-severity record. -/
theorem errorFrequencies_eq_nil_iff (messages : List MypyMessage) :
    errorFrequencies messages = [] ↔ countErrors messages = 0 := by
  constructor
  · intro h
    rw [← sumValues_errorFrequencies, h]
    rfl
  · intro h
    have hsum : sumValues (errorFrequencies messages) = 0 := by
      rw [sumValues_errorFrequencies, h]
    cases hef : errorFrequencies messages with
    | nil => rfl
    | cons kv rest =>
        have hpos := errorFrequencies_pos messages kv (by rw [hef]; exact List.mem_cons_self _ _)
        rw [hef, sumValues_cons] at hsum
        omega

theorem dictGet_dictSet_self {K V : Type} [DecidableEq K] (d : Dict K V)
    (k : K) (v : V) : dictGet (dictSet d k v) k = some v := by
  induction d with
  | nil => simp [dictSet, dictGet]
  | cons qw rest ih =>
      obtain ⟨q, w⟩ := qw
      by_cases hq : q = k
      · subst hq
        rw [show dictSet ((q, w) :: rest) q v = (q, v) :: rest from by simp [dictSet]]
        rw [dictGet_cons, if_pos rfl]
      · rw [show dictSet ((q, w) :: rest) k v = (q, w) :: dictSet rest k v from by
          simp [dictSet, hq]]
        rw [dictGet_cons, if_neg hq]
        exact ih

/-- **C8.** The Error Grouper counts only records with severity exactly
`"error"`, by exact case-sensitive equality on the message text; a batch with
zero error-severity records leaves the aggregate summary untouched (the file
never appears as an empty table), while a batch with at least one installs
its nonempty Counter under the file. -/
theorem C8_error_grouper (ec : ErrorCounter) (fn : Str) (msgs : List MypyMessage) :
    (∀ k : Str, counterGet (errorFrequencies msgs) k =
       msgs.countP (fun m => decide (m.message_type = errorTag ∧ m.message = k))) ∧
    (countErrors msgs = 0 → ec.process_messages fn msgs = ec) ∧
    (0 < countErrors msgs →
       dictGet (ec.process_messages fn msgs).grouped_errors fn =
         some (errorFrequencies msgs) ∧
       errorFrequencies msgs ≠ []) := by
  refine ⟨fun k => counterGet_errorFrequencies msgs k, ?_, ?_⟩
  · intro h
    have hnil : errorFrequencies msgs = [] := (errorFrequencies_eq_nil_iff msgs).mpr h
    simp [ErrorCounter.process_messages, hnil]
  · intro h
    have hne : errorFrequencies msgs ≠ [] := by
      intro hnil
      have := (errorFrequencies_eq_nil_iff msgs).mp hnil
      omega
    refine ⟨?_, hne⟩
    simp only [ErrorCounter.process_messages, hne, if_neg, ite_false]
    exact dictGet_dictSet_self _ _ _

/-- Witness for C8: one error record installs its count table; the note-only
variant of the same batch leaves the grouper untouched. -/
theorem C8_error_grouper_witness :
    (dictGet (ErrorCounter.process_messages { grouped_errors := [] } (strL "a.py")
        [exErr1]).grouped_errors (strL "a.py") = some (errorFrequencies [exErr1]) ∧
      errorFrequencies [exErr1] ≠ []) ∧
    ErrorCounter.process_messages { grouped_errors := [] } (strL "a.py") [exNoteY] =
      { grouped_errors := [] } :=
  ⟨(C8_error_grouper { grouped_errors := [] } (strL "a.py") [exErr1]).2.2 (by decide),
   (C8_error_grouper { grouped_errors := [] } (strL "a.py") [exNoteY]).2.1 (by decide)⟩

/-- **C10.** Calling the Error Grouper twice with the same filename makes the
later batch's count table replace the earlier one: the aggregate entry for
the file afterwards is exactly the second batch's Counter, for every first
batch — the earlier counts are silently lost rather than merged. -/
theorem C10_second_batch_replaces (ec : ErrorCounter) (fn : Str)
    (msgs1 msgs2 : List MypyMessage) (h : 0 < countErrors msgs2) :
    dictGet ((ec.process_messages fn msgs1).process_messages fn msgs2).grouped_errors fn
      = some (errorFrequencies msgs2) := by
  have hne : errorFrequencies msgs2 ≠ [] := by
    intro hnil
    have := (errorFrequencies_eq_nil_iff msgs2).mp hnil
    omega
  simp only [ErrorCounter.process_messages, hne, if_neg, ite_false]
  exact dictGet_dictSet_self _ _ _

/-- Witness for C10: after `[exErr1]` then `[exErr2]` for the same file, the
entry is the second batch's table (the first batch's count is gone). -/
theorem C10_second_batch_replaces_witness :
    dictGet ((ErrorCounter.process_messages
        (ErrorCounter.process_messages { grouped_errors := [] } (strL "a.py") [exErr1])
        (strL "a.py") [exErr2]).grouped_errors) (strL "a.py")
      = some (errorFrequencies [exErr2]) :=
  C10_second_batch_replaces { grouped_errors := [] } (strL "a.py") [exErr1] [exErr2]
    (by decide)

/-! ## C2: whole-file-fixed accounting -/

/-- **C2.** After the per-file batches are reconciled, the file entries still
remaining in the destructively drained baseline have their entire error
counts added to `num_fixed_errors` when the `DiffReport` is produced (the
other two counters pass through unchanged, and processing a batch removes
exactly the processed file's baseline entry); in particular, with empty
input and baseline `{"a.py": {"bad type": 2}}` the report is
`total_errors = 0, num_new_errors = 0, num_fixed_errors = 2`. -/
theorem C2_whole_file_fixed :
    (∀ t : ChangeTracker,
       (ChangeTracker.diff_report t).num_fixed_errors =
         t.num_fixed_errors + (t.old_report.map (fun kv => sumValues kv.2)).sum ∧
       (ChangeTracker.diff_report t).total_errors = t.num_errors ∧
       (ChangeTracker.diff_report t).num_new_errors = t.num_new_errors ∧
       (ChangeTracker.diff_report t).error_lines = t.error_lines) ∧
    (∀ (t : ChangeTracker) (fn : Str) (msgs : List MypyMessage),
       (t.process_messages fn msgs).old_report = (dictPop t.old_report fn).2) ∧
    runChangeTracker exBaseline [] =
      .ok { error_lines := [], total_errors := 0, num_new_errors := 0,
            num_fixed_errors := 2 } :=
  ⟨fun _ => ⟨rfl, rfl, rfl, rfl⟩, fun _ _ _ => rfl, rfl⟩

/-! ## C7: diff-report destination and layout -/

/-- **C7 (layout check, and the destination the code actually uses).**  The
plain writer emits the evidentiary raw lines (blank-line separated), then
exactly the three summary lines fixed/new/total in that order — but the
stream the CLI wires it to is standard output, not standard error:
`DefaultChangeReportWriter.__init__` defaults `_write` to
`sys.stdout.write`, and `_parse_command` passes no `_write`. -/
theorem C7_diff_destination_and_format :
    cliChangeReportStream false = OutStream.stdout ∧
    cliChangeReportStream true = OutStream.stdout ∧
    OutStream.stdout ≠ OutStream.stderr ∧
    DefaultChangeReportWriter.write_report
        { error_lines := [strL "a.py:1: error: X"], total_errors := 3,
          num_new_errors := 1, num_fixed_errors := 2 } =
      [strL "a.py:1: error: X\n\n", strL "Fixed errors: 2\n",
       strL "New errors: 1\n", strL "Total errors: 3\n"] :=
  ⟨rfl, rfl, by decide, rfl⟩

/-! ## C3: every raw line behind a new error is emitted -/

theorem dictGetD_dictAppend {K V : Type} [DecidableEq K] (d : Dict K (List V))
    (k : K) (v : V) (k' : K) :
    dictGetD (dictAppend d k v) k' [] =
      if k = k' then dictGetD d k' [] ++ [v] else dictGetD d k' [] := by
  induction d with
  | nil =>
      by_cases h : k = k' <;> simp [dictAppend, dictGetD, dictGet, h]
  | cons qvs rest ih =>
      obtain ⟨q, vs⟩ := qvs
      by_cases hq : q = k
      · subst hq
        rw [show dictAppend ((q, vs) :: rest) q v = (q, vs ++ [v]) :: rest from by
          simp [dictAppend]]
        by_cases hk : q = k'
        · subst hk
          simp [dictGetD, dictGet_cons]
        · simp [dictGetD, dictGet_cons, hk]
      · rw [show dictAppend ((q, vs) :: rest) k v = (q, vs) :: dictAppend rest k v from by
          simp [dictAppend, hq]]
        by_cases hk : q = k'
        · subst hk
          have : ¬ (k = q) := fun e => hq e.symm
          simp [dictGetD, dictGet_cons, this]
        · simp only [dictGetD, dictGet_cons, if_neg hk]
          exact ih

theorem mem_messagesByLineNumber (msgs : List MypyMessage) (m : MypyMessage)
    (hm : m ∈ msgs) :
    m.raw ∈ dictGetD (messagesByLineNumber msgs) m.line_number [] := by
  unfold messagesByLineNumber
  have mono : ∀ (ms : List MypyMessage) (d : Dict Int (List Str)) (x : Str) (ln : Int),
      x ∈ dictGetD d ln [] →
      x ∈ dictGetD (ms.foldl (fun d m => dictAppend d m.line_number m.raw) d) ln [] := by
    intro ms
    induction ms with
    | nil => intro d x ln hx; exact hx
    | cons m0 ms' ih =>
        intro d x ln hx
        rw [List.foldl_cons]
        apply ih
        rw [dictGetD_dictAppend]
        by_cases h : m0.line_number = ln <;> simp [h, hx]
  have main : ∀ (ms : List MypyMessage) (d : Dict Int (List Str)), m ∈ ms →
      m.raw ∈ dictGetD (ms.foldl (fun d m => dictAppend d m.line_number m.raw) d)
        m.line_number [] := by
    intro ms
    induction ms with
    | nil => intro d h; cases h
    | cons m0 ms' ih =>
        intro d h
        rw [List.foldl_cons]
        rcases List.mem_cons.mp h with rfl | h'
        · apply mono
          rw [dictGetD_dictAppend, if_pos rfl]
          exact List.mem_append_right _ (List.mem_singleton.mpr rfl)
        · exact ih _ h'
  exact main msgs [] hm

theorem mem_lineNumbersByError (msgs : List MypyMessage) (e : MypyMessage)
    (he : e ∈ msgs) (ht : e.message_type = errorTag) :
    e.line_number ∈ dictGetD (lineNumbersByError msgs) e.message [] := by
  unfold lineNumbersByError
  have mono : ∀ (ms : List MypyMessage) (d : Dict Str (List Int)) (x : Int) (k : Str),
      x ∈ dictGetD d k [] →
      x ∈ dictGetD (ms.foldl
        (fun d m => if m.message_type = errorTag then dictAppend d m.message m.line_number else d)
        d) k [] := by
    intro ms
    induction ms with
    | nil => intro d x k hx; exact hx
    | cons m0 ms' ih =>
        intro d x k hx
        rw [List.foldl_cons]
        apply ih
        by_cases hm0 : m0.message_type = errorTag
        · rw [if_pos hm0, dictGetD_dictAppend]
          by_cases h : m0.message = k <;> simp [h, hx]
        · rw [if_neg hm0]
          exact hx
  have main : ∀ (ms : List MypyMessage) (d : Dict Str (List Int)), e ∈ ms →
      e.line_number ∈ dictGetD (ms.foldl
        (fun d m => if m.message_type = errorTag then dictAppend d m.message m.line_number else d)
        d) e.message [] := by
    intro ms
    induction ms with
    | nil => intro d h; cases h
    | cons m0 ms' ih =>
        intro d h
        rw [List.foldl_cons]
        rcases List.mem_cons.mp h with rfl | h'
        · apply mono
          rw [if_pos ht, dictGetD_dictAppend, if_pos rfl]
          exact List.mem_append_right _ (List.mem_singleton.mpr rfl)
        · exact ih _ h'
  exact main msgs [] he

theorem mem_of_counterGet_pos {K : Type} [DecidableEq K] (c : Counter K) (k : K)
    (h : 0 < counterGet c k) : (k, counterGet c k) ∈ c := by
  induction c with
  | nil => rw [counterGet_nil] at h; omega
  | cons qv rest ih =>
      obtain ⟨q, v⟩ := qv
      rw [counterGet_cons] at h ⊢
      by_cases hq : q = k
      · subst hq
        rw [if_pos rfl] at h ⊢
        exact List.mem_cons_self _ _
      · rw [if_neg hq] at h ⊢
        exact List.mem_cons_of_mem _ (ih h)

theorem dictGetD_dictPop_fst {K V : Type} [DecidableEq K] (d : Dict K (List V)) (k : K) :
    (dictPop d k).1.getD [] = dictGetD d k [] := by
  rw [dictPop_fst]
  rfl

theorem dictGetD_dictPop_ne {K V : Type} [DecidableEq K] (d : Dict K (List V))
    (k k' : K) (h : k' ≠ k) :
    dictGetD (dictPop d k).2 k' [] = dictGetD d k' [] := by
  unfold dictGetD
  rw [show (dictPop d k).2 = eraseKey d k from rfl, dictGet_eraseKey_ne d k k' h]

theorem evidenceInner_nil (acc : List Str × Dict Int (List Str)) :
    evidenceInner acc [] = acc := rfl

theorem evidenceInner_cons (acc : List Str × Dict Int (List Str)) (ln : Int)
    (lns : List Int) :
    evidenceInner acc (ln :: lns) =
      evidenceInner (acc.1 ++ (dictPop acc.2 ln).1.getD [], (dictPop acc.2 ln).2) lns := by
  simp [evidenceInner]

theorem evidenceInner_mono (lns : List Int) :
    ∀ (acc : List Str × Dict Int (List Str)) (x : Str),
      x ∈ acc.1 → x ∈ (evidenceInner acc lns).1 := by
  induction lns with
  | nil => intro acc x hx; exact hx
  | cons ln lns' ih =>
      intro acc x hx
      rw [evidenceInner_cons]
      exact ih _ x (List.mem_append_left _ hx)

theorem evidenceInner_hit (lns : List Int) :
    ∀ (acc : List Str × Dict Int (List Str)) (ln : Int) (x : Str),
      ln ∈ lns → x ∈ dictGetD acc.2 ln [] → x ∈ (evidenceInner acc lns).1 := by
  induction lns with
  | nil => intro acc ln x h; cases h
  | cons ln1 lns' ih =>
      intro acc ln x hln hx
      rw [evidenceInner_cons]
      by_cases h1 : ln1 = ln
      · subst h1
        apply evidenceInner_mono
        apply List.mem_append_right
        rw [dictGetD_dictPop_fst]
        exact hx
      · rcases List.mem_cons.mp hln with rfl | hln'
        · exact absurd rfl h1
        · apply ih _ ln x hln'
          rw [show (acc.1 ++ (dictPop acc.2 ln1).1.getD [], (dictPop acc.2 ln1).2).2 =
            (dictPop acc.2 ln1).2 from rfl]
          rw [dictGetD_dictPop_ne _ _ _ (fun e => h1 e.symm)]
          exact hx

theorem evidenceInner_pres (lns : List Int) :
    ∀ (acc : List Str × Dict Int (List Str)) (ln : Int) (x : Str),
      x ∈ dictGetD acc.2 ln [] →
      x ∈ (evidenceInner acc lns).1 ∨ x ∈ dictGetD (evidenceInner acc lns).2 ln [] := by
  induction lns with
  | nil => intro acc ln x hx; exact Or.inr hx
  | cons ln1 lns' ih =>
      intro acc ln x hx
      rw [evidenceInner_cons]
      by_cases h1 : ln1 = ln
      · subst h1
        left
        apply evidenceInner_mono
        apply List.mem_append_right
        rw [dictGetD_dictPop_fst]
        exact hx
      · apply ih
        rw [show (acc.1 ++ (dictPop acc.2 ln1).1.getD [], (dictPop acc.2 ln1).2).2 =
          (dictPop acc.2 ln1).2 from rfl]
        rw [dictGetD_dictPop_ne _ _ _ (fun e => h1 e.symm)]
        exact hx

theorem evidence_outer_mono (lbe : Dict Str (List Int)) (nef : Counter Str) :
    ∀ (acc : List Str × Dict Int (List Str)) (x : Str),
      x ∈ acc.1 →
      x ∈ (nef.foldl (fun a c => evidenceInner a (dictGetD lbe c.1 [])) acc).1 := by
  induction nef with
  | nil => intro acc x hx; exact hx
  | cons kv rest ih =>
      intro acc x hx
      rw [List.foldl_cons]
      exact ih _ x (evidenceInner_mono _ _ x hx)

theorem evidence_outer_main (lbe : Dict Str (List Int)) (nef : Counter Str) :
    ∀ (acc : List Str × Dict Int (List Str)) (kv : Str × Nat) (ln : Int) (x : Str),
      kv ∈ nef → ln ∈ dictGetD lbe kv.1 [] → x ∈ dictGetD acc.2 ln [] →
      x ∈ (nef.foldl (fun a c => evidenceInner a (dictGetD lbe c.1 [])) acc).1 := by
  induction nef with
  | nil => intro acc kv ln x h; cases h
  | cons kv1 rest ih =>
      intro acc kv ln x hkv hln hx
      rw [List.foldl_cons]
      rcases List.mem_cons.mp hkv with rfl | hkv'
      · apply evidence_outer_mono
        exact evidenceInner_hit _ acc ln x hln hx
      · rcases evidenceInner_pres (dictGetD lbe kv1.1 []) acc ln x hx with hl | hr
        · apply evidence_outer_mono
          exact hl
        · exact ih _ kv ln x hkv' hln hr

theorem process_messages_error_lines (t : ChangeTracker) (fn : Str)
    (msgs : List MypyMessage) :
    (t.process_messages fn msgs).error_lines =
      t.error_lines ++
        (evidenceFold (lineNumbersByError msgs)
          (counterSub (errorFrequencies msgs) ((dictPop t.old_report fn).1.getD []))
          (messagesByLineNumber msgs)).1 := rfl

/-- **C3.** When a file's batch is reconciled, for every message with a
strictly positive residual in the current-minus-baseline difference, every
raw line recorded at every line number on which that message occurred in the
batch — including records of other severities, such as notes, sharing those
line numbers — ends up in `error_lines`, not just one exemplar; in
particular, for input `a.py:1: error: X` and `a.py:1: note: Y` against an
empty baseline, `error_lines` holds both raw lines and `num_new_errors = 1`. -/
theorem C3_evidence_lines :
    (∀ (t : ChangeTracker) (fn : Str) (msgs : List MypyMessage) (k : Str)
       (m' e : MypyMessage),
       m' ∈ msgs → e ∈ msgs → e.message_type = errorTag → e.message = k →
       e.line_number = m'.line_number →
       0 < counterGet (counterSub (errorFrequencies msgs)
         ((dictPop t.old_report fn).1.getD [])) k →
       m'.raw ∈ (t.process_messages fn msgs).error_lines) ∧
    runChangeTracker [] [strL "a.py:1: error: X", strL "a.py:1: note: Y"] =
      .ok { error_lines := [strL "a.py:1: error: X", strL "a.py:1: note: Y"],
            total_errors := 1, num_new_errors := 1, num_fixed_errors := 0 } := by
  constructor
  · intro t fn msgs k m' e hm' he ht hk hln hpos
    rw [process_messages_error_lines]
    apply List.mem_append_right
    have hmem := mem_of_counterGet_pos _ k hpos
    have hlbe : m'.line_number ∈ dictGetD (lineNumbersByError msgs)
        (k, counterGet (counterSub (errorFrequencies msgs)
          ((dictPop t.old_report fn).1.getD [])) k).1 [] := by
      have := mem_lineNumbersByError msgs e he ht
      rw [hk, hln] at this
      exact this
    have hraw := mem_messagesByLineNumber msgs m' hm'
    exact evidence_outer_main (lineNumbersByError msgs) _ _ _ m'.line_number m'.raw
      hmem hlbe hraw
  · rfl

/-- Witness for C3: in the example batch, the note's raw line (sharing line 1
with the new error `X`) is in `error_lines`. -/
theorem C3_evidence_lines_witness :
    exNoteY.raw ∈ (ChangeTracker.process_messages (ChangeTracker.init [])
      (strL "a.py") [exErrX, exNoteY]).error_lines :=
  C3_evidence_lines.1 (ChangeTracker.init []) (strL "a.py") [exErrX, exNoteY]
    (strL "X") exNoteY exErrX (by decide) (by decide) rfl rfl rfl (by decide)

end MypyJsonReport
